import Mathlib

/-!
Verification development for the logic-trace-parser repository.

Each stage of the decoding pipeline is shallowly embedded as an executable
Lean function translated from the Rust source.  Machine integers (`u8`,
`u16`, `u32`, `u64`) are modelled as `Nat` with explicit masking where the
source relies on the register width; `f64` timestamps are modelled as exact
rationals (the operations the code performs on them — additions,
subtractions and comparisons of small dyadic values — are exact in IEEE
double precision, so the rational model is faithful on the inputs treated
here); fallible paths return `Except`; paths that panic in Rust
(out-of-bounds indexing, `unimplemented!`, `unreachable!`) are modelled by
an explicit `panicked` result constructor.
-/

namespace Ltp

/-! ## Exact model of `f64` values

Stages that do arithmetic on timestamps (serial, vcd, the capture
sources, the multi-file merge) are embedded over `F64`: an exact rational
carried as an unreduced `numerator / denominator` pair.  On the values
these embeddings build, the `f64` operations of the source are exact, so
the rational semantics is faithful; keeping fractions unreduced avoids
`Nat.gcd`, so every operation reduces in the kernel and concrete runs can
be settled by `decide`.  Two `F64` values are semantically equal when
they cross-multiply equally (`beq`), which is what `f64` equality
observes; the comparisons agree with the rational order whenever both
denominators are positive, which holds for every value the embeddings
construct (division keeps the denominator positive for a nonzero divisor,
and the sources guard their divisors against zero). -/

structure F64 where
  num : Int
  den : Nat
deriving DecidableEq, Repr

namespace F64

def add (x y : F64) : F64 :=
  ⟨x.num * (y.den : Int) + y.num * (x.den : Int), x.den * y.den⟩

def sub (x y : F64) : F64 :=
  ⟨x.num * (y.den : Int) - y.num * (x.den : Int), x.den * y.den⟩

def mul (x y : F64) : F64 :=
  ⟨x.num * y.num, x.den * y.den⟩

def div (x y : F64) : F64 :=
  if 0 ≤ y.num then ⟨x.num * (y.den : Int), x.den * y.num.toNat⟩
  else ⟨-(x.num * (y.den : Int)), x.den * (-y.num).toNat⟩

def blt (x y : F64) : Bool :=
  x.num * (y.den : Int) < y.num * (x.den : Int)

def ble (x y : F64) : Bool :=
  x.num * (y.den : Int) ≤ y.num * (x.den : Int)

def beq (x y : F64) : Bool :=
  x.num * (y.den : Int) == y.num * (x.den : Int)

/-- The rational a value stands for. -/
def toRat (x : F64) : ℚ :=
  (x.num : ℚ) / (x.den : ℚ)

end F64

/-! ## USB checksums (src/usb/types.rs, `crc5` / `crc16`)

In the source `acc` is a `u8` (for `crc5`) or `u16` (for `crc16`); the
`&= 0x1F` applied each round keeps the crc5 accumulator below 2^5 so the
`u8` wrap-around of `acc <<= 1` can never trigger, and for crc16 the
wrap-around of `acc <<= 1` is the `&&& 0xFFFF` below. -/

/-- One bit step of the USB CRC5: bits are taken LSB-first from `b`. -/
def crc5Step (p : Nat × Nat) : Nat × Nat :=
  let acc := p.1
  let b := p.2
  let doXor := (b &&& 1) != ((acc >>> 4) &&& 1)
  let acc := acc <<< 1
  let acc := if doXor then acc ^^^ 5 else acc
  (acc &&& 0x1F, b >>> 1)

/-- Process one input byte (8 bit steps) of the USB CRC5. -/
def crc5Byte (acc b : Nat) : Nat :=
  ((List.range 8).foldl (fun p _ => crc5Step p) (acc, b)).1

/-- USB CRC5 over a byte sequence, initial accumulator 0x1F, polynomial 5. -/
def crc5 (v : List Nat) : Nat :=
  v.foldl crc5Byte 0x1F

/-- One bit step of the USB CRC16: bits are taken LSB-first from `b`. -/
def crc16Step (p : Nat × Nat) : Nat × Nat :=
  let acc := p.1
  let b := p.2
  let doXor := (b &&& 1) != ((acc >>> 15) &&& 1)
  let acc := (acc <<< 1) &&& 0xFFFF
  let acc := if doXor then acc ^^^ 0x8005 else acc
  (acc, b >>> 1)

/-- Process one input byte (8 bit steps) of the USB CRC16. -/
def crc16Byte (acc b : Nat) : Nat :=
  ((List.range 8).foldl (fun p _ => crc16Step p) (acc, b)).1

/-- USB CRC16 over a byte sequence, initial 0xFFFF, polynomial 0x8005,
no final xor. -/
def crc16 (v : List Nat) : Nat :=
  v.foldl crc16Byte 0xFFFF

/-! ## USB packet layer (src/usb/types.rs and src/usb/packet.rs) -/

inductive TokenType
  | Setup
  | Out
  | In
  | Ping
deriving DecidableEq, Repr

structure Token where
  token_type : TokenType
  address : Nat
  endpoint : Nat
deriving DecidableEq, Repr

inductive DataPID
  | Data0
  | Data1
  | Data2
  | MData
deriving DecidableEq, Repr

structure Data where
  pid : DataPID
  payload : List Nat
deriving DecidableEq, Repr

inductive HandShake
  | Ack
  | NAck
  | Stall
  | NYet
  | Err
deriving DecidableEq, Repr

inductive Packet
  | Reset
  | SoF (frm_num : Nat)
  | HandShake (h : HandShake)
  | Token (t : Token)
  | Data (d : Data)
deriving DecidableEq, Repr

/-- Result of `Packet::try_from(&[u8])`: `panicked` models a Rust panic
(the `buf[0]` out-of-bounds index on an empty buffer, or the
`unimplemented!` reached for split tokens). -/
inductive ParseOut
  | panicked
  | error (msg : String)
  | ok (p : Packet)
deriving DecidableEq, Repr

/-- Shallow embedding of `<Packet as TryFrom<&[u8]>>::try_from`
(src/usb/packet.rs lines 18-84).  The source reads `buf[0]` before the
`ensure!` on its value, so an empty buffer is an out-of-bounds panic. -/
def Packet.tryFrom (buf : List Nat) : ParseOut :=
  match buf with
  | [] => .panicked
  | b0 :: rest =>
    if b0 != 0x80 then .error "Invalid sync byte"
    else
      match rest with
      | [0xA5, lsb, msb] =>
        if crc5 [lsb, msb] != 0x0C then .error "Crc error"
        else .ok (.SoF (((msb <<< 8) ||| lsb) &&& 0x7FF))
      | [0xE1, lsb, msb] =>
        if crc5 [lsb, msb] != 0x0C then .error "Crc error"
        else .ok (.Token ⟨.Out, lsb &&& 0x7F, ((msb &&& 0x7) <<< 1) ||| (lsb >>> 7)⟩)
      | [0x69, lsb, msb] =>
        if crc5 [lsb, msb] != 0x0C then .error "Crc error"
        else .ok (.Token ⟨.In, lsb &&& 0x7F, ((msb &&& 0x7) <<< 1) ||| (lsb >>> 7)⟩)
      | [0x2D, lsb, msb] =>
        if crc5 [lsb, msb] != 0x0C then .error "Crc error"
        else .ok (.Token ⟨.Setup, lsb &&& 0x7F, ((msb &&& 0x7) <<< 1) ||| (lsb >>> 7)⟩)
      | [0xB4, lsb, msb] =>
        if crc5 [lsb, msb] != 0x0C then .error "Crc error"
        else .ok (.Token ⟨.Ping, lsb &&& 0x7F, ((msb &&& 0x7) <<< 1) ||| (lsb >>> 7)⟩)
      | [0x78, a, b, c] =>
        if crc5 [a, b, c] != 0x0C then .error "Crc Error"
        else .panicked
      | [0xD2] => .ok (.HandShake .Ack)
      | [0x5A] => .ok (.HandShake .NAck)
      | [0x1E] => .ok (.HandShake .Stall)
      | [0x96] => .ok (.HandShake .NYet)
      | [0x3C] => .ok (.HandShake .Err)
      | pid :: tail =>
        if (pid == 0xC3 || pid == 0x4B || pid == 0x17 || pid == 0x0F)
            && tail.length ≥ 2 then
          if crc16 tail != 0x800D then .error "CRC Error"
          else
            .ok (.Data ⟨if pid == 0xC3 then .Data0
                        else if pid == 0x4B then .Data1
                        else if pid == 0x17 then .Data2
                        else .MData,
                        tail.take (tail.length - 2)⟩)
        else .error "Unknown packet"
      | [] => .error "Unknown packet"

/-- Events produced by the USB byte decoder, input of the packet stage. -/
inductive Byte
  | Reset
  | Idle
  | Byte (b : Nat)
  | Eop
deriving DecidableEq, Repr

/-- Shallow embedding of `<PacketIterator as Iterator>::next`
(src/usb/packet.rs lines 95-117), run over a whole finite input stream.
The second component of the result is true when the run ended in a Rust
panic (from `Packet::try_from`); events already yielded are kept.  The
`buf` argument is the byte accumulation buffer: it is created empty at
each `next()` call, i.e. after every emitted packet; `Byte::Idle` falls
into the `{}` arm of the source match and leaves it untouched. -/
def packetRun (input : List (ℚ × Byte)) (buf : List Nat) :
    List (ℚ × Except String Packet) × Bool :=
  match input with
  | [] => ([], false)
  | (ts, ev) :: rest =>
    match ev with
    | .Reset =>
      let r := packetRun rest []
      ((ts, .ok .Reset) :: r.1, r.2)
    | .Idle => packetRun rest buf
    | .Byte b => packetRun rest (buf ++ [b])
    | .Eop =>
      match Packet.tryFrom buf with
      | .panicked => ([], true)
      | .error m =>
        let r := packetRun rest []
        ((ts, .error m) :: r.1, r.2)
      | .ok p =>
        let r := packetRun rest []
        ((ts, .ok p) :: r.1, r.2)

/-! ## USB protocol layer (src/usb/protocol.rs) -/

inductive TransactionState
  | Idle
  | Token (t : Token)
  | Data (token : Token) (data : Option Data)
deriving DecidableEq, Repr

structure Transaction where
  token : Token
  data : Option Data
  handshake : HandShake
deriving DecidableEq, Repr

/-- Output events of the protocol stage (`usb::protocol::Event`). -/
inductive PEvent
  | Reset
  | Sof (frm_num : Nat)
  | Transaction (t : Transaction)
deriving DecidableEq, Repr

/-- Shallow embedding of the body of `<ProtocolIterator as Iterator>::next`
for one consumed packet (src/usb/protocol.rs lines 43-83): returns the new
transaction state and the event emitted for this packet, if any.  Error
breaks leave the state unchanged, matching the source. -/
def protocolStep (s : TransactionState) (p : Packet) :
    TransactionState × Option (Except String PEvent) :=
  match p with
  | .Reset => (.Idle, some (.ok .Reset))
  | .SoF n => (s, some (.ok (.Sof n)))
  | .Token t =>
    match s with
    | .Idle => (.Token t, none)
    | _ => (s, some (.error "Unexpected token packet"))
  | .Data d =>
    match s with
    | .Token t => (.Data t (some d), none)
    | _ => (s, some (.error "Unexpected data packet"))
  | .HandShake h =>
    match s with
    | .Token t => (.Idle, some (.ok (.Transaction ⟨t, none, h⟩)))
    | .Data t d => (.Idle, some (.ok (.Transaction ⟨t, d, h⟩)))
    | .Idle => (s, some (.error "Unexpected handshake packet"))

/-! ## SPI events and the SPI-NOR-flash decoder (src/spif.rs)

The source's `PartialCommand` enum is embedded under the name
`PendingCommand`; constructor and field names otherwise follow the
source.  Addresses are `u32` in the source, hence the `&&& 0xFFFFFFFF`
masking on the shift-or accumulation steps. -/

inductive SpiEvent
  | ChipSelect (b : Bool)
  | Data (mosi miso : Nat)
deriving DecidableEq, Repr

namespace Spif

structure DeviceId where
  manufacturer : Nat
  device_id : Nat
deriving DecidableEq, Repr

inductive Command
  | Read (addr : Nat) (data : List Nat)
  | WriteEnable
  | ResetEnable
  | Reset
  | PageProgram (addr : Nat) (data : List Nat)
  | BlockErase (addr : Nat)
  | BlockErase32 (addr : Nat)
  | SectorErase (addr : Nat)
  | ReadSFDP (addr : Nat) (data : List Nat)
  | ReadStatusRegister (sr : Nat)
  | ReadDeviceId (id : DeviceId)
deriving DecidableEq, Repr

/-- Embedding of spif.rs `PartialCommand`; each in-progress constructor
carries the start timestamp `sts` and the bytes accumulated so far. -/
inductive PendingCommand
  | Read (sts : ℚ) (addr : Nat) (data : List Nat)
  | ReadStatusRegister (sts : ℚ)
  | PageProgram (sts : ℚ) (addr : Nat) (data : List Nat)
  | BlockErase (sts : ℚ) (addr : Nat)
  | BlockErase32 (sts : ℚ) (addr : Nat)
  | SectorErase (sts : ℚ) (addr : Nat)
  | ReadSFDP (sts : ℚ) (addr : Nat) (data : List Nat)
  | ReadDeviceId (sts : ℚ) (manufacturer : Nat) (device_id : Nat)
  | None
deriving DecidableEq, Repr

/-- Mutable fields of the `Spif` stage. -/
structure State where
  cs : Bool
  idx : Nat
  pending : PendingCommand
deriving DecidableEq, Repr

/-- Result of one `Spif::update` call: the new state plus the event that
this SPI event produced, if any; `panicked` models the `unreachable!` in
the `ReadDeviceId` arm. -/
inductive StepOut
  | ok (s : State) (out : Option (ℚ × Except String Command))
  | panicked
deriving Repr

/-- Embedding of `Spif::new_cmd` (spif.rs lines 147-199): the first MOSI
byte after CS assert selects the command. -/
def newCmd (s : State) (ts : ℚ) (mosi _miso : Nat) :
    State × Except String (Option Command) :=
  let s := { s with idx := 0 }
  if mosi = 0x02 then ({ s with pending := .PageProgram ts 0 [] }, .ok none)
  else if mosi = 0x03 then ({ s with pending := .Read ts 0 [] }, .ok none)
  else if mosi = 0x05 then ({ s with pending := .ReadStatusRegister ts }, .ok none)
  else if mosi = 0x06 then (s, .ok (some .WriteEnable))
  else if mosi = 0x20 then ({ s with pending := .SectorErase ts 0 }, .ok none)
  else if mosi = 0x52 then ({ s with pending := .BlockErase32 ts 0 }, .ok none)
  else if mosi = 0x5A then ({ s with pending := .ReadSFDP ts 0 [] }, .ok none)
  else if mosi = 0x66 then (s, .ok (some .ResetEnable))
  else if mosi = 0x99 then (s, .ok (some .Reset))
  else if mosi = 0x9F then ({ s with pending := .ReadDeviceId ts 0 0 }, .ok none)
  else if mosi = 0xD8 then ({ s with pending := .BlockErase ts 0 }, .ok none)
  else (s, .error "Unsupported cmd")

/-- Embedding of `Spif::update` (spif.rs lines 201-314).  `cs = false`
means chip-select asserted (active low): data bytes are decoded while
`cs` is false, and the `ChipSelect(true)` (deassert) arm finalizes the
pending command, emitting only for `Read`, `PageProgram` and `ReadSFDP`
and silently dropping every other pending variant. -/
def update (s : State) (ts : ℚ) (ev : SpiEvent) : StepOut :=
  match ev with
  | .ChipSelect false => .ok { s with cs := false } none
  | .ChipSelect true =>
    let s2 : State := { s with cs := true, pending := .None }
    match s.pending with
    | .Read sts addr data => .ok s2 (some (sts, .ok (.Read addr data)))
    | .PageProgram sts addr data => .ok s2 (some (sts, .ok (.PageProgram addr data)))
    | .ReadSFDP sts addr data => .ok s2 (some (sts, .ok (.ReadSFDP addr data)))
    | _ => .ok s2 none
  | .Data mosi miso =>
    if s.cs then .ok s (some (ts, .error "Ignoring event"))
    else
      match s.pending with
      | .None =>
        match newCmd s ts mosi miso with
        | (s2, .ok (some cmd)) => .ok s2 (some (ts, .ok cmd))
        | (s2, .ok none) => .ok s2 none
        | (s2, .error msg) => .ok s2 (some (ts, .error msg))
      | .Read sts addr data =>
        if s.idx < 3 then
          .ok { s with pending := .Read sts (((addr <<< 8) ||| mosi) &&& 0xFFFFFFFF) data,
                       idx := s.idx + 1 } none
        else .ok { s with pending := .Read sts addr (data ++ [miso]) } none
      | .ReadStatusRegister sts =>
        .ok { s with pending := .None } (some (sts, .ok (.ReadStatusRegister miso)))
      | .BlockErase sts addr =>
        if s.idx < 2 then
          .ok { s with pending := .BlockErase sts (((addr <<< 8) ||| mosi) &&& 0xFFFFFFFF),
                       idx := s.idx + 1 } none
        else
          .ok { s with pending := .None }
            (some (sts, .ok (.BlockErase (((addr <<< 8) ||| mosi) &&& 0xFFFFFFFF))))
      | .BlockErase32 sts addr =>
        if s.idx < 2 then
          .ok { s with pending := .BlockErase32 sts (((addr <<< 8) ||| mosi) &&& 0xFFFFFFFF),
                       idx := s.idx + 1 } none
        else
          .ok { s with pending := .None }
            (some (sts, .ok (.BlockErase32 (((addr <<< 8) ||| mosi) &&& 0xFFFFFFFF))))
      | .SectorErase sts addr =>
        if s.idx < 2 then
          .ok { s with pending := .SectorErase sts (((addr <<< 8) ||| mosi) &&& 0xFFFFFFFF),
                       idx := s.idx + 1 } none
        else
          .ok { s with pending := .None }
            (some (sts, .ok (.SectorErase (((addr <<< 8) ||| mosi) &&& 0xFFFFFFFF))))
      | .PageProgram sts addr data =>
        if s.idx < 3 then
          .ok { s with pending := .PageProgram sts (((addr <<< 8) ||| mosi) &&& 0xFFFFFFFF) data,
                       idx := s.idx + 1 } none
        else .ok { s with pending := .PageProgram sts addr (data ++ [mosi]) } none
      | .ReadSFDP sts addr data =>
        if s.idx < 3 then
          .ok { s with pending := .ReadSFDP sts (((addr <<< 8) ||| mosi) &&& 0xFFFFFFFF) data,
                       idx := s.idx + 1 } none
        else .ok { s with pending := .ReadSFDP sts addr (data ++ [miso]) } none
      | .ReadDeviceId sts man dev =>
        if s.idx = 0 then
          .ok { s with pending := .ReadDeviceId sts miso dev, idx := 1 } none
        else if s.idx = 1 then
          .ok { s with pending := .ReadDeviceId sts man ((miso <<< 8) &&& 0xFFFF), idx := 2 } none
        else if s.idx = 2 then
          .ok { s with pending := .None }
            (some (sts, .ok (.ReadDeviceId ⟨man, (dev ||| miso) &&& 0xFFFF⟩)))
        else .panicked

/-- True for the pending-command variants that the `ChipSelect(true)` arm
of `Spif::update` drops without emitting anything (every in-progress
variant other than `Read`, `PageProgram` and `ReadSFDP`). -/
def PendingCommand.isSilentlyDropped : PendingCommand → Bool
  | .ReadStatusRegister _ => true
  | .BlockErase _ _ => true
  | .BlockErase32 _ _ => true
  | .SectorErase _ _ => true
  | .ReadDeviceId _ _ _ => true
  | _ => false

end Spif

/-! ## VCD source (src/input/vcd.rs)

The `vcd` crate's parser is an external collaborator: the capture is
embedded as the stream of `Command` values it would deliver.  The channel
index a `VarDef` registers is carried directly (in the source it is parsed
from the wire's name); `Other` stands for all ignored commands. -/

namespace Vcd

inductive TimescaleUnit
  | S
  | MS
  | US
  | NS
  | PS
  | FS
deriving DecidableEq, Repr

inductive Value
  | V0
  | V1
  | VX
  | VZ
deriving DecidableEq, Repr

inductive Command
  | Timescale (n : Nat) (unit : TimescaleUnit)
  | Timestamp (ts : Nat)
  | ChangeScalar (id : Nat) (v : Value)
  | VarDef (wire : Bool) (id : Nat) (chan : Nat)
  | Other
deriving DecidableEq, Repr

/-- Seconds per unit for the six VCD timescale units. -/
def unitFactor : TimescaleUnit → F64
  | .S => ⟨1, 1⟩
  | .MS => ⟨1, 1000⟩
  | .US => ⟨1, 1000000⟩
  | .NS => ⟨1, 1000000000⟩
  | .PS => ⟨1, 1000000000000⟩
  | .FS => ⟨1, 1000000000000000⟩

/-- Mutable fields of `VcdParser`; `vars` is the id-to-channel map, with
insert-overwrite modelled by prepending (lookup takes the first hit). -/
structure State where
  factor : F64
  first_ts : F64
  current_ts : F64
  vars : List (Nat × Nat)
  state : Nat
  stopped : Bool
deriving DecidableEq, Repr

/-- Initial state of `VcdParser::new`: the `-0.1` values are the
pre-trigger sentinel. -/
def initState : State :=
  { factor := ⟨1, 1⟩, first_ts := ⟨-1, 10⟩, current_ts := ⟨-1, 10⟩,
    vars := [], state := 0, stopped := false }

/-- Embedding of `<VcdParser as Iterator>::next` (src/input/vcd.rs lines
43-113) iterated over the whole command stream.  The boolean is true when
the run ended in a Rust panic (the `self.vars[&id]` lookup on an
unregistered id).  A command that sets `stopped` emits its error event and
ends the run; `VarDef` on a non-wire emits an error event but continues,
as in the source.  The `first_ts == -0.1` sentinel test is `f64` value
equality, i.e. `F64.beq`. -/
def run : List Command → State → List (F64 × Except String Nat) × Bool
  | [], _ => ([], false)
  | c :: rest, s =>
    match c with
    | .Timescale n u => run rest { s with factor := F64.mul ⟨(n : Int), 1⟩ (unitFactor u) }
    | .Timestamp t =>
      let new_ts := F64.mul ⟨(t : Int), 1⟩ s.factor
      let first := if F64.beq s.first_ts ⟨-1, 10⟩ then new_ts else s.first_ts
      let new_ts2 := F64.sub (F64.sub new_ts first) ⟨1, 10⟩
      if F64.blt new_ts2 s.current_ts then
        ([(s.current_ts, .error "Timestamp must be monotonic")], false)
      else run rest { s with first_ts := first, current_ts := new_ts2 }
    | .ChangeScalar id v =>
      match v with
      | .V0 | .V1 =>
        match s.vars.lookup id with
        | none => ([], true)
        | some shift =>
          let bit : Nat := if v = .V1 then 1 else 0
          let st := (s.state &&& ((2 ^ 64 - 1) ^^^ (1 <<< shift))) ||| (bit <<< shift)
          let r := run rest { s with state := st }
          ((s.current_ts, .ok st) :: r.1, r.2)
      | _ => ([(s.current_ts, .error "Unsupported value")], false)
    | .VarDef wire id chan =>
      if wire then run rest { s with vars := (id, chan) :: s.vars }
      else
        let r := run rest s
        ((s.current_ts, .error "Unsupported VarType") :: r.1, r.2)
    | .Other => run rest s

/-- First `Ok` sample of an output event list. -/
def firstSample : List (F64 × Except String Nat) → Option (F64 × Nat)
  | [] => none
  | (ts, .ok v) :: _ => some (ts, v)
  | (_, .error _) :: rest => firstSample rest

/-- Number of `Timestamp` commands occurring before the first
`ChangeScalar` of the capture. -/
def tsCountBeforeChange : List Command → Nat
  | [] => 0
  | .ChangeScalar _ _ :: _ => 0
  | .Timestamp _ :: rest => 1 + tsCountBeforeChange rest
  | _ :: rest => tsCountBeforeChange rest

end Vcd

/-! ## Binary single-channel sources

Two implementations exist in the repository: the legacy
src/input/logicdata.rs one (nom-based, used by `input::sample_iterator`)
and the src/source/logic.rs one.  Byte input models the underlying file;
`read_exact` on a truncated stream consumes what remains and fails, and
keeps failing on every later call. -/

/-- Little-endian unsigned value of a byte list (first byte least
significant). -/
def leNat (bs : List Nat) : Nat :=
  bs.foldr (fun b acc => acc * 256 + b) 0

/-- Two's-complement signed 64-bit value of an 8-byte little-endian list,
as in `i64::from_le_bytes` / nom's `le_i64`. -/
def i64FromLeBytes (bs : List Nat) : Int :=
  let v := leNat bs
  if v < 2 ^ 63 then (v : Int) else (v : Int) - 2 ^ 64

/-- Embedding of `<LogicDataParser as Iterator>::next` from
src/input/logicdata.rs (lines 50-64) iterated to exhaustion: each 9-byte
record `[i64le tick][u8 sample]` yields `(tick / freq, sample)`; when
fewer than 9 bytes remain, `read_exact` fails and `next` returns `None`,
ending the stream with no error event.  (nom's `le_i64 >> le_u8` cannot
fail on a full 9-byte buffer, so the `Err` branch of the source is dead.)
The fuel argument makes the recursion structural; each record consumes 9
bytes, so `bytes.length` pulls always suffice. -/
def logicdataRunFuel (freq : F64) : Nat → List Nat → List (F64 × Except String Nat)
  | 0, _ => []
  | fuel + 1, bytes =>
    if bytes.length ≥ 9 then
      (F64.div ⟨i64FromLeBytes (bytes.take 8), 1⟩ freq, .ok (leNat ((bytes.drop 8).take 1)))
        :: logicdataRunFuel freq fuel (bytes.drop 9)
    else []

def logicdataRun (freq : F64) (bytes : List Nat) : List (F64 × Except String Nat) :=
  logicdataRunFuel freq bytes.length bytes

/-- Iterator state of the src/source/logic.rs `LogicDataParser`: remaining
file bytes, `current_ts`, and the `stopped` flag (which no code path ever
sets to true). -/
structure SourceLogicState where
  bytes : List Nat
  current_ts : F64
  stopped : Bool
deriving DecidableEq, Repr

/-- Embedding of `<LogicDataParser as Iterator>::next` from
src/source/logic.rs (lines 43-66): one pull, returning the yielded event
and the successor state, or `none` at end of stream.  A failing
`read_exact` surfaces an error event at `current_ts`; since `stopped` is
never set, the same failure repeats on every subsequent pull. -/
def sourceLogicNext (freq : F64) (st : SourceLogicState) :
    Option ((F64 × Except String Nat) × SourceLogicState) :=
  if st.stopped then none
  else if st.bytes.length ≥ 8 then
    let ts := F64.div ⟨i64FromLeBytes (st.bytes.take 8), 1⟩ freq
    let rest := st.bytes.drop 8
    match rest with
    | smp :: rest2 => some ((ts, .ok smp), ⟨rest2, ts, false⟩)
    | [] => some ((st.current_ts, .error "io error"), ⟨[], st.current_ts, false⟩)
  else some ((st.current_ts, .error "io error"), ⟨[], st.current_ts, false⟩)

/-! ## Multi-file digital source (src/input/logic2.rs)

File parsing is the library boundary: a `Channel` carries the channel id
from the file name, the `initial_state` header field, and the decoded
`f64le` transition times (as exact rationals).  The k-way merge and the
1 ns coalescing pass of `LogicData::new` are embedded below; on equal
timestamps `kmerge_by` with a strict comparison takes the earlier
channel first, which `merge2` reproduces by keeping its left argument. -/

namespace Logic2

structure Channel where
  id : Nat
  initial_state : Bool
  transitions : List F64
deriving DecidableEq, Repr

/-- The fold of src/input/logic2.rs lines 128-136: bitwise OR of
`1 << id` over the channels whose header `initial_state` field was 1. -/
def initialState (chans : List Channel) : Nat :=
  chans.foldl (fun acc c => acc ||| (if c.initial_state then 1 <<< c.id else 0)) 0

/-- Two-way merge by timestamp with the left (earlier channel) stream
winning ties, as `kmerge_by(|(_, a), (_, b)| a < b)` does.  The fuel
argument makes the recursion structural; the sum of the two lengths
always suffices. -/
def merge2Fuel : Nat → List (Nat × F64) → List (Nat × F64) → List (Nat × F64)
  | 0, l1, l2 => l1 ++ l2
  | _ + 1, [], l2 => l2
  | _ + 1, a :: l1, [] => a :: l1
  | fuel + 1, a :: l1, b :: l2 =>
    if F64.blt b.2 a.2 then b :: merge2Fuel fuel (a :: l1) l2
    else a :: merge2Fuel fuel l1 (b :: l2)

def merge2 (l1 l2 : List (Nat × F64)) : List (Nat × F64) :=
  merge2Fuel (l1.length + l2.length) l1 l2

/-- The merged `(channel id, transition time)` stream over all channels. -/
def merged (chans : List Channel) : List (Nat × F64) :=
  chans.foldr (fun c acc => merge2 (c.transitions.map fun t => (c.id, t)) acc) []

/-- Embedding of the `batching`/`peeking_take_while` coalescing pass of
`LogicData::new` (src/input/logic2.rs lines 151-185), restructured as a
left-to-right scan: the first component of the accumulator is the open
group `(first timestamp, mask of toggled bits)`, if any.  An element
extends the open group when its bit is new to the mask and its time is
within 1 ns of the group's first time; otherwise the group is emitted as
`(first time, state XOR mask)` and the element opens the next group.  The
`assert!(prev_ts <= *ts)` of the source fires — modelled by the `true`
flag — when an examined element precedes the open group's first time. -/
def gatherAux : Option (F64 × Nat) → Nat → List (Nat × F64) → List (F64 × Nat) × Bool
  | none, _, [] => ([], false)
  | some (ts0, mask), state, [] => ([(ts0, state ^^^ mask)], false)
  | none, state, (id, ts) :: rest => gatherAux (some (ts, 1 <<< id)) state rest
  | some (ts0, mask), state, (id, ts) :: rest =>
    if F64.ble ts0 ts then
      let bit : Nat := 1 <<< id
      if ((mask &&& bit) != bit) && F64.blt (F64.sub ts ts0) ⟨1, 1000000000⟩ then
        gatherAux (some (ts0, mask ||| bit)) state rest
      else
        let st := state ^^^ mask
        let r := gatherAux (some (ts, 1 <<< id)) st rest
        ((ts0, st) :: r.1, r.2)
    else ([], true)

/-- Result of `LogicData::new`: `panicked` models the
`chan.transitions[..8]` slice panic on a channel with no transitions;
the boolean on `ok` is true when the coalescing pass hit its assert. -/
inductive NewOut
  | panicked
  | error (msg : String)
  | ok (samples : List (F64 × Nat)) (panicFlag : Bool)
deriving Repr

/-- Embedding of `LogicData::new` (src/input/logic2.rs lines 127-193)
composed with its trivial `Iterator` impl (lines 197-205): the list of
`(timestamp, Sample)` pairs the stage emits.  The `current_ts` minimum
computed in the source (which also raises the errors modelled here) is
dead apart from those checks: no `(0, initial state)` entry is ever
pushed onto the transitions vector. -/
def new (chans : List Channel) : NewOut :=
  if chans.any (fun c => c.transitions.isEmpty) then .panicked
  else if chans.isEmpty then .error "No sample found !"
  else
    let g := gatherAux none (initialState chans) (merged chans)
    .ok g.1 g.2

end Logic2

/-! ## Asynchronous serial decoder (src/serial.rs) -/

inductive SerialError
  | Framing
  | Parity
deriving DecidableEq, Repr

inductive SerialEvent
  | Rx (v : Nat)
  | Tx (v : Nat)
  | Cts (b : Bool)
  | Rts (b : Bool)
  | TxError (e : SerialError)
  | RxError (e : SerialError)
deriving DecidableEq, Repr

inductive Parity
  | Even
  | Odd
  | Set
  | Clear
  | None
deriving DecidableEq, Repr

inductive MonitorState
  | Idle
  | Start
  | Data (reg : Nat) (shift : Nat)
  | Parity (reg : Nat)
  | Stop (reg : Nat)
deriving DecidableEq, Repr

/-- The two `Monitor` instantiations of `Serial::new` differ only in the
event constructors they are wired to; the role stands for those three
`'static` closures. -/
inductive MonitorRole
  | rx
  | tx
deriving DecidableEq, Repr

def MonitorRole.onData : MonitorRole → Nat → SerialEvent
  | .rx, v => .Rx v
  | .tx, v => .Tx v

def MonitorRole.onErr : MonitorRole → SerialError → SerialEvent
  | .rx, e => .RxError e
  | .tx, e => .TxError e

def MonitorRole.onFc : MonitorRole → Bool → SerialEvent
  | .rx, b => .Rts b
  | .tx, b => .Cts b

structure Monitor where
  state : MonitorState
  ts : F64
  data : Bool
  last_fc : Bool
  bit_duration : F64
  parity : Parity
  role : MonitorRole
deriving DecidableEq, Repr

/-- `Monitor::new` (src/serial.rs lines 80-98). -/
def Monitor.new (baud : F64) (parity : Parity) (role : MonitorRole) : Monitor :=
  { state := .Idle, ts := ⟨-1, 10⟩, data := true, last_fc := false,
    bit_duration := F64.div ⟨1, 1⟩ baud, parity := parity, role := role }

/-- Outcome of the `while self.ts < ts` loop of `Monitor::update`:
final state, clock and `res[0]` slot, or the `unimplemented!` panic of
the `Parity` arm.  `fuelOut` is reported when the iteration bound is
exhausted; it never occurs in the runs below (the loop advances the
monitor clock by at least one bit duration per iteration). -/
inductive LoopOut
  | ok (st : MonitorState) (mts : F64) (r0 : Option (F64 × SerialEvent))
  | panicked
  | fuelOut
deriving DecidableEq, Repr

/-- The state-machine loop of `Monitor::update` (src/serial.rs lines
106-152).  `mdata` is `self.data` (the line level before this sample) and
`data` the new sample's level, used only by the `Idle` arm as in the
source; `r0` is the `res[0]` slot written by the `Stop` arm. -/
def monLoop (role : MonitorRole) (parity : Parity) (bd : F64) (mdata data : Bool)
    (ts : F64) : Nat → MonitorState → F64 → Option (F64 × SerialEvent) → LoopOut
  | 0, _, _, _ => .fuelOut
  | fuel + 1, st, mts, r0 =>
    if F64.blt mts ts then
      match st with
      | .Idle =>
        if !data then monLoop role parity bd mdata data ts fuel .Start ts r0
        else monLoop role parity bd mdata data ts fuel .Idle ts r0
      | .Start =>
        if F64.blt (F64.add mts (F64.mul bd ⟨3, 2⟩)) ts then
          monLoop role parity bd mdata data ts fuel
            (.Data (if mdata then 0x80 else 0) 1) (F64.add mts (F64.mul bd ⟨3, 2⟩)) r0
        else .ok st mts r0
      | .Data reg shift =>
        if F64.blt (F64.add mts bd) ts then
          let shift2 := shift + 1
          let reg2 := (reg >>> 1) ||| (if mdata then 0x80 else 0)
          let st2 := if shift2 = 8 then
              (if parity ≠ .None then MonitorState.Parity reg2 else .Stop reg2)
            else .Data reg2 shift2
          monLoop role parity bd mdata data ts fuel st2 (F64.add mts bd) r0
        else .ok st mts r0
      | .Parity _ => .panicked
      | .Stop reg =>
        if F64.blt (F64.add mts bd) ts then
          let r2 := if !mdata then some (mts, role.onErr .Framing)
            else some (mts, role.onData reg)
          monLoop role parity bd mdata data ts fuel .Idle (F64.add mts bd) r2
        else .ok st mts r0
    else .ok st mts r0

/-- Result of one `Monitor::update` call: the updated monitor and the two
event slots `res[0]`, `res[1]`. -/
inductive UpdOut
  | ok (m : Monitor) (r0 r1 : Option (F64 × SerialEvent))
  | panicked
  | fuelOut
deriving DecidableEq, Repr

/-- `Monitor::update` (src/serial.rs lines 99-155): flow-control edge
detection into `res[1]`, then the state-machine loop, then `self.data`
takes the new sample level. -/
def Monitor.update (m : Monitor) (ts : F64) (data fc : Bool) : UpdOut :=
  let r1 := if m.last_fc ≠ fc then some (ts, m.role.onFc fc) else none
  match monLoop m.role m.parity m.bit_duration m.data data ts 100 m.state m.ts none with
  | .ok st mts r0 =>
    .ok { m with state := st, ts := mts, data := data, last_fc := fc } r0 r1
  | .panicked => .panicked
  | .fuelOut => .fuelOut

/-- `Monitor::finalize` (src/serial.rs lines 156-166). -/
def Monitor.finalize (m : Monitor) : Monitor × Option (F64 × SerialEvent) :=
  let res := match m.state with
    | .Idle => none
    | .Start => some (m.ts, m.role.onErr .Framing)
    | .Data _ _ => some (m.ts, m.role.onErr .Framing)
    | .Parity _ => some (m.ts, m.role.onErr .Framing)
    | .Stop byte => some (m.ts, m.role.onData byte)
  ({ m with state := .Idle }, res)

/-- Channel masks of a `Serial` stage (`1 << channel`, or 0 when the
rts/cts channel is not configured). -/
structure SerialCfg where
  rx_mask : Nat
  rts_mask : Nat
  tx_mask : Nat
  cts_mask : Nat
deriving DecidableEq, Repr

structure SerialState where
  rx : Monitor
  tx : Monitor
deriving DecidableEq, Repr

/-- Stable ascending insertion by timestamp.  The source sorts each batch
descending with `sort_unstable_by` and pops from the back, emitting in
ascending timestamp order; the relative order of equal timestamps is
unspecified there, and no theorem below depends on it. -/
def insertByTs (p : F64 × SerialEvent) : List (F64 × SerialEvent) → List (F64 × SerialEvent)
  | [] => [p]
  | q :: rest => if F64.ble q.1 p.1 then q :: insertByTs p rest else p :: q :: rest

def sortByTs (l : List (F64 × SerialEvent)) : List (F64 × SerialEvent) :=
  l.foldl (fun acc p => insertByTs p acc) []

inductive RunStatus
  | done
  | panicked
  | fuelOut
deriving DecidableEq, Repr

/-- Embedding of `<Serial as Iterator>::next` (src/serial.rs lines
188-226) run over a whole finite sample stream: for each input sample
both monitors are updated (rx first); if neither produced an event, both
are finalized (tx first) — note this happens after every event-less
sample, not only at end of stream; the batch is then emitted in
ascending timestamp order.  At end of input the monitors are dropped
without a final flush (`self.it.next()?`). -/
def serialRun (cfg : SerialCfg) : List (F64 × Nat) → SerialState →
    List (F64 × SerialEvent) × RunStatus
  | [], _ => ([], .done)
  | (ts, smp) :: rest, st =>
    match st.rx.update ts ((smp &&& cfg.rx_mask) == cfg.rx_mask)
        ((smp &&& cfg.rts_mask) == cfg.rts_mask) with
    | .panicked => ([], .panicked)
    | .fuelOut => ([], .fuelOut)
    | .ok rx2 rxr0 rxr1 =>
      match st.tx.update ts ((smp &&& cfg.tx_mask) == cfg.tx_mask)
          ((smp &&& cfg.cts_mask) == cfg.cts_mask) with
      | .panicked => ([], .panicked)
      | .fuelOut => ([], .fuelOut)
      | .ok tx2 txr0 txr1 =>
        let batch := rxr0.toList ++ rxr1.toList ++ txr0.toList ++ txr1.toList
        let next :=
          if batch.isEmpty then
            let txf := tx2.finalize
            let rxf := rx2.finalize
            (⟨rxf.1, txf.1⟩, txf.2.toList ++ rxf.2.toList)
          else ((⟨rx2, tx2⟩ : SerialState), batch)
        let r := serialRun cfg rest next.1
        (sortByTs next.2 ++ r.1, r.2)

/-- The `Serial::new` configuration of the claims: tx on channel 0, rx on
its default channel 1, no rts/cts (mask 0). -/
def c1Cfg : SerialCfg := { rx_mask := 2, rts_mask := 0, tx_mask := 1, cts_mask := 0 }

/-- Initial monitors for a given baud rate and parity. -/
def serialInit (baud : F64) (parity : Parity) : SerialState :=
  ⟨Monitor.new baud parity .rx, Monitor.new baud parity .tx⟩

/-- The spec's serial seed-test stream: idle-high, start bit at t=1, the
eight data bits of 0x55 (LSB first) as the alternating pattern with edges
every second from t=2.5, stop bit high from t=10.5, plus two further
alternating samples giving the decoder time to flush. -/
def c1Input : List (F64 × Nat) :=
  [(⟨0, 1⟩, 1), (⟨1, 1⟩, 0), (⟨5, 2⟩, 1), (⟨7, 2⟩, 0), (⟨9, 2⟩, 1),
   (⟨11, 2⟩, 0), (⟨13, 2⟩, 1), (⟨15, 2⟩, 0), (⟨17, 2⟩, 1), (⟨19, 2⟩, 0),
   (⟨21, 2⟩, 1), (⟨25, 2⟩, 0), (⟨27, 2⟩, 1)]

/-- Whole-stream run of a single monitor, used for the parity claim. -/
inductive MonRunOut
  | ok (m : Monitor)
  | panicked
  | fuelOut
deriving DecidableEq, Repr

def monitorRun (m : Monitor) : List (F64 × Bool × Bool) → MonRunOut
  | [] => .ok m
  | (ts, data, fc) :: rest =>
    match m.update ts data fc with
    | .ok m2 _ _ => monitorRun m2 rest
    | .panicked => .panicked
    | .fuelOut => .fuelOut

/-! ## Theorems -/

/-- Claim C1: the spec's serial seed test claims that with baud 1, tx on
channel 0 and parity none, the sample stream of a 0x55 frame eventually
yields `Tx(0x55)`.  The code never emits it: `Serial::next` finalizes
both monitors after every sample that produced no event, aborting the
frame in progress, so the run completes (`done`, no panic) with only
flow-control and `Framing` error events — `Tx(0x55)` is absent and
`TxError(Framing)` is present. -/
theorem c1_no_tx_event :
    (serialRun c1Cfg c1Input (serialInit ⟨1, 1⟩ .None)).2 = .done
    ∧ ((serialRun c1Cfg c1Input (serialInit ⟨1, 1⟩ .None)).1.all
        fun p => !(p.2 == .Tx 0x55)) = true
    ∧ ((serialRun c1Cfg c1Input (serialInit ⟨1, 1⟩ .None)).1.any
        fun p => p.2 == .TxError .Framing) = true := by
  refine ⟨by decide, by decide, by decide⟩

/-- Claim C2: the USB checksum functions satisfy `crc5 [0x00, 0x10] = 0x0C`
and `crc16 [] = 0xFFFF` (bits LSB-first, initial accumulators 0x1F and
0xFFFF, polynomials 0x05 and 0x8005, no final xor). -/
theorem c2_crc_values : crc5 [0x00, 0x10] = 0x0C ∧ crc16 [] = 0xFFFF := by
  decide

/-- Claim C3 counterexample: the claim says bytes received before a
`Byte::Idle` never contribute to the packet parsed at the next `Eop`.  On
the stream `Byte 0x80, Idle, Byte 0xD2, Eop` the stage parses the buffer
`[0x80, 0xD2]` into an `Ack` handshake — the pre-Idle sync byte 0x80
contributed, for parsing only the post-Idle byte `[0xD2]` rejects the
sync byte instead. -/
theorem c3_counterexample :
    packetRun [(0, .Byte 0x80), (1, .Idle), (2, .Byte 0xD2), (3, .Eop)] []
      = ([(3, .ok (.HandShake .Ack))], false)
    ∧ Packet.tryFrom [0xD2] = .error "Invalid sync byte" :=
  ⟨rfl, rfl⟩

/-- Claim C3 as amended: `Byte::Idle` is a no-op in the packet stage — it
does not reset the byte accumulation buffer, and removing any single
`Idle` event from the input stream leaves the stage's output unchanged
(the buffer only starts afresh after each emitted packet). -/
theorem c3_idle_is_noop (pre post : List (ℚ × Byte)) (ts : ℚ) (buf : List Nat) :
    packetRun (pre ++ (ts, .Idle) :: post) buf = packetRun (pre ++ post) buf := by
  induction pre generalizing buf with
  | nil => rfl
  | cons hd tl ih =>
    obtain ⟨hts, hev⟩ := hd
    cases hev with
    | Reset => simp only [List.cons_append, packetRun, List.append_eq, ih]
    | Idle =>
      simp only [List.cons_append, packetRun]
      exact ih buf
    | Byte b =>
      simp only [List.cons_append, packetRun]
      exact ih (buf ++ [b])
    | Eop =>
      simp only [List.cons_append, packetRun]
      cases Packet.tryFrom buf <;>
        simp only [packetRun, List.append_eq, ih]

/-- Claim C4 counterexample: the claim says a `Packet::SoF` resets the
transaction state machine to Idle.  Consuming a SoF in state `Token`
emits the passthrough but leaves the state at `Token`, so a pending token
survives the SoF. -/
theorem c4_counterexample :
    (protocolStep (.Token ⟨.In, 1, 2⟩) (.SoF 5)).1 ≠ .Idle
    ∧ (protocolStep (.Token ⟨.In, 1, 2⟩) (.SoF 5)).2 = some (.ok (.Sof 5)) := by
  exact ⟨by decide, rfl⟩

/-- Claim C4 as amended: `Packet::Reset` emits the `Reset` passthrough and
resets the transaction state to Idle; `Packet::SoF` emits the `Sof`
passthrough but leaves the transaction state unchanged, so a pending
token or token-plus-data survives a SoF packet. -/
theorem c4_reset_sof (s : TransactionState) (n : Nat) :
    protocolStep s .Reset = (.Idle, some (.ok .Reset))
    ∧ protocolStep s (.SoF n) = (s, some (.ok (.Sof n))) :=
  ⟨rfl, rfl⟩

/-- Claim C5: the claim says an `Eop` on an empty packet buffer yields an
error event rather than a crash.  `Packet::try_from` reads `buf[0]`
before checking anything, so the empty buffer is an out-of-bounds panic,
and the stream `[Eop]` crashes the stage instead of producing an error
event. -/
theorem c5_empty_buffer_eop_panics :
    Packet.tryFrom [] = .panicked ∧ packetRun [(0, .Eop)] [] = ([], true) :=
  ⟨rfl, rfl⟩

/-- Claim C6 counterexample: the claim says the first emitted Sample is at
−0.1 s for every capture, whether or not Timestamp commands precede the
first scalar change.  With two Timestamp commands (ticks 0 then 5,
timescale 1 s) before the first change, the first Sample is emitted at
4.9 s. -/
theorem c6_counterexample :
    Vcd.firstSample (Vcd.run [.VarDef true 7 0, .Timestamp 0, .Timestamp 5,
        .ChangeScalar 7 .V1] Vcd.initState).1 = some (⟨49, 10⟩, 1)
    ∧ F64.toRat ⟨49, 10⟩ ≠ -(1 / 10) := by
  refine ⟨by decide, ?_⟩
  norm_num [F64.toRat]

/-- Bridge from the cross-multiplied form to the rational value: a
fraction with positive denominator whose numerator times 10 is the
negated denominator stands for −1/10. -/
theorem F64.toRat_eq_neg_tenth (t : F64) (h1 : t.num * 10 = -(t.den : Int))
    (h2 : 0 < t.den) : t.toRat = -(1 / 10) := by
  have hd : (t.den : ℚ) ≠ 0 := by
    exact_mod_cast (Nat.pos_iff_ne_zero.mp h2)
  have h1' : ((t.num : ℚ)) * 10 = -((t.den : ℚ)) := by
    exact_mod_cast congrArg (fun z : Int => (z : ℚ)) h1
  rw [F64.toRat, div_eq_iff hd]
  linarith [h1']

/-- Invariant carried through `Vcd.run`: while at most one `Timestamp`
command precedes the first `ChangeScalar`, the current timestamp stays at
−1/10 (in cross-multiplied form, with positive denominators), so the
first emitted sample carries it. -/
theorem vcd_first_sample_aux (cmds : List Vcd.Command) :
    ∀ s : Vcd.State,
      s.current_ts.num * 10 = -(s.current_ts.den : Int) →
      0 < s.current_ts.den →
      0 < s.factor.den →
      (Vcd.tsCountBeforeChange cmds = 0 ∨ s.first_ts = ⟨-1, 10⟩) →
      Vcd.tsCountBeforeChange cmds ≤ 1 →
      ∀ p : F64 × Nat, Vcd.firstSample (Vcd.run cmds s).1 = some p →
      p.1.num * 10 = -(p.1.den : Int) ∧ 0 < p.1.den := by
  induction cmds with
  | nil =>
    intro s _ _ _ _ _ p hp
    simp [Vcd.run, Vcd.firstSample] at hp
  | cons c rest ih =>
    intro s h1 h2 h3 h4 h5 p hp
    cases c with
    | Timescale n u =>
      simp only [Vcd.run] at hp
      refine ih _ ?_ ?_ ?_ ?_ ?_ p hp
      · exact h1
      · exact h2
      · cases u <;> simp [Vcd.unitFactor, F64.mul]
      · simpa [Vcd.tsCountBeforeChange] using h4
      · simpa [Vcd.tsCountBeforeChange] using h5
    | Timestamp t =>
      have hcnt : Vcd.tsCountBeforeChange rest = 0 := by
        simp only [Vcd.tsCountBeforeChange] at h5
        omega
      have hfirst : s.first_ts = ⟨-1, 10⟩ := by
        rcases h4 with h4 | h4
        · simp [Vcd.tsCountBeforeChange] at h4
        · exact h4
      simp only [Vcd.run, hfirst] at hp
      rw [show F64.beq ⟨-1, 10⟩ ⟨-1, 10⟩ = true from rfl] at hp
      simp only [if_true] at hp
      have hblt : F64.blt (F64.sub (F64.sub (F64.mul ⟨(t : Int), 1⟩ s.factor)
          (F64.mul ⟨(t : Int), 1⟩ s.factor)) ⟨1, 10⟩) s.current_ts = false := by
        have key : (F64.sub (F64.sub (F64.mul ⟨(t : Int), 1⟩ s.factor)
            (F64.mul ⟨(t : Int), 1⟩ s.factor)) ⟨1, 10⟩).num * (s.current_ts.den : Int)
            = s.current_ts.num
              * ((F64.sub (F64.sub (F64.mul ⟨(t : Int), 1⟩ s.factor)
                  (F64.mul ⟨(t : Int), 1⟩ s.factor)) ⟨1, 10⟩).den : Int) := by
          simp only [F64.sub, F64.mul]
          push_cast
          linear_combination
            (-((s.factor.den : Int) * (s.factor.den : Int))) * h1
        simp only [F64.blt, key, decide_eq_false_iff_not]
        exact lt_irrefl _
      rw [hblt] at hp
      simp only [Bool.false_eq_true, if_false] at hp
      refine ih _ ?_ ?_ ?_ ?_ ?_ p hp
      · simp only [F64.sub, F64.mul]
        push_cast
        ring
      · simp only [F64.sub, F64.mul]
        have hpos : 0 < 1 * s.factor.den := by omega
        exact Nat.mul_pos (Nat.mul_pos hpos hpos) (by norm_num)
      · exact h3
      · exact Or.inl hcnt
      · omega
    | ChangeScalar id v =>
      cases v with
      | V0 =>
        cases hl : s.vars.lookup id with
        | none =>
          simp only [Vcd.run, hl] at hp
          simp [Vcd.firstSample] at hp
        | some shift =>
          simp only [Vcd.run, hl, Vcd.firstSample, Option.some.injEq] at hp
          subst hp
          exact ⟨h1, h2⟩
      | V1 =>
        cases hl : s.vars.lookup id with
        | none =>
          simp only [Vcd.run, hl] at hp
          simp [Vcd.firstSample] at hp
        | some shift =>
          simp only [Vcd.run, hl, Vcd.firstSample, Option.some.injEq] at hp
          subst hp
          exact ⟨h1, h2⟩
      | VX => simp [Vcd.run, Vcd.firstSample] at hp
      | VZ => simp [Vcd.run, Vcd.firstSample] at hp
    | VarDef wire id chan =>
      cases wire with
      | true =>
        simp only [Vcd.run, if_true] at hp
        refine ih _ ?_ ?_ ?_ ?_ ?_ p hp
        · exact h1
        · exact h2
        · exact h3
        · simpa [Vcd.tsCountBeforeChange] using h4
        · simpa [Vcd.tsCountBeforeChange] using h5
      | false =>
        simp only [Vcd.run, Bool.false_eq_true, if_false, Vcd.firstSample] at hp
        refine ih _ ?_ ?_ ?_ ?_ ?_ p hp
        · exact h1
        · exact h2
        · exact h3
        · simpa [Vcd.tsCountBeforeChange] using h4
        · simpa [Vcd.tsCountBeforeChange] using h5
    | Other =>
      simp only [Vcd.run] at hp
      refine ih _ ?_ ?_ ?_ ?_ ?_ p hp
      · exact h1
      · exact h2
      · exact h3
      · simpa [Vcd.tsCountBeforeChange] using h4
      · simpa [Vcd.tsCountBeforeChange] using h5

/-- Claim C6 as amended: the first emitted Sample's timestamp equals
−0.1 s provided at most one `Timestamp` command precedes the first scalar
change (in particular whether none or exactly one does); when several
Timestamp commands precede it, the first Sample instead carries the
shifted time of the latest one, as the counterexample shows. -/
theorem c6_first_sample (cmds : List Vcd.Command)
    (h : Vcd.tsCountBeforeChange cmds ≤ 1) (p : F64 × Nat)
    (hp : Vcd.firstSample (Vcd.run cmds Vcd.initState).1 = some p) :
    p.1.toRat = -(1 / 10) := by
  obtain ⟨h1, h2⟩ := vcd_first_sample_aux cmds Vcd.initState (by decide) (by decide)
    (by decide) (Or.inr rfl) h p hp
  exact F64.toRat_eq_neg_tenth _ h1 h2

/-- Witness for the amended C6: a capture with one `Timestamp` before the
first change emits its first Sample at −0.1 s. -/
theorem c6_first_sample_witness :
    Vcd.tsCountBeforeChange [Vcd.Command.VarDef true 0 0, Vcd.Command.Timestamp 3,
        Vcd.Command.ChangeScalar 0 Vcd.Value.V1] ≤ 1
    ∧ F64.toRat ⟨-1, 10⟩ = -(1 / 10) :=
  ⟨by decide,
   c6_first_sample [Vcd.Command.VarDef true 0 0, Vcd.Command.Timestamp 3,
      Vcd.Command.ChangeScalar 0 Vcd.Value.V1] (by decide) (⟨-1, 10⟩, 1) (by decide)⟩

/-- Claim C7 counterexample: the claim says the OR-fold initial state is
emitted as a Sample at t = 0 before any merged-transition sample.  For a
single channel (id 0, initial state 1) with one transition at t = 5 s the
stage emits exactly one sample, `(5, 0)` — the transition applied to the
initial state — and no `(0, 1)` sample. -/
theorem c7_counterexample :
    Logic2.new [⟨0, true, [⟨5, 1⟩]⟩] = .ok [(⟨5, 1⟩, 0)] false
    ∧ Logic2.initialState [⟨0, true, [⟨5, 1⟩]⟩] = 1
    ∧ ((⟨5, 1⟩ : F64), (0 : Nat)) ≠ ((⟨0, 1⟩ : F64), 1) :=
  ⟨rfl, rfl, by decide⟩

/-- An OR of naturals is zero only when the left operand is. -/
theorem nat_or_eq_zero_left {a b : Nat} (h : a ||| b = 0) : a = 0 := by
  have h2 := congrArg (fun n => n &&& a) h
  simp only [Nat.zero_and] at h2
  rw [show (a ||| b) &&& a = a from by
    apply Nat.eq_of_testBit_eq
    intro i
    rw [Nat.testBit_and, Nat.testBit_or]
    cases a.testBit i <;> simp] at h2
  exact h2

/-- Head of the coalescing pass on an open group: when every remaining
element is at or after the group's first time, the first emitted sample
carries that first time and the state with some nonzero group mask
applied. -/
theorem gatherAux_head_aux (state : Nat) :
    ∀ (rest : List (Nat × F64)) (ts0 : F64) (mask : Nat),
      (∀ q ∈ rest, F64.ble ts0 q.2 = true) → mask ≠ 0 →
      ∃ m, m ≠ 0 ∧ (Logic2.gatherAux (some (ts0, mask)) state rest).1.head?
        = some (ts0, state ^^^ m) := by
  intro rest
  induction rest with
  | nil => intro ts0 mask _ hm; exact ⟨mask, hm, rfl⟩
  | cons q rest2 ih =>
    intro ts0 mask hq hm
    obtain ⟨id, ts⟩ := q
    have hble : F64.ble ts0 ts = true := hq (id, ts) (by simp)
    rw [Logic2.gatherAux]
    rw [hble]
    simp only [if_true]
    cases hcond : ((mask &&& (1 <<< id)) != (1 <<< id))
        && F64.blt (F64.sub ts ts0) ⟨1, 1000000000⟩ with
    | true =>
      refine ih ts0 (mask ||| (1 <<< id)) (fun r hr => hq r (by simp [hr])) ?_
      intro hz
      exact hm (nat_or_eq_zero_left hz)
    | false => exact ⟨mask, hm, rfl⟩

/-- Claim C7 as amended: the initial state is the bitwise OR of
`1 << id` over the channels whose `initial_state` field is 1, and it is
used as the base state but never emitted at t = 0: the first emitted
Sample (when the merged transition stream is nonempty and its head is
earliest) carries the first transition's timestamp with the first
coalesced group already XORed into the initial state. -/
theorem c7_no_initial_sample (chans : List Logic2.Channel) (i : Nat) (t : F64)
    (rest : List (Nat × F64))
    (hne : chans.any (fun c => c.transitions.isEmpty) = false)
    (hm : Logic2.merged chans = (i, t) :: rest)
    (hmin : ∀ q ∈ rest, F64.ble t q.2 = true) :
    ∃ samples flag m, Logic2.new chans = .ok samples flag ∧ m ≠ 0
      ∧ samples.head? = some (t, Logic2.initialState chans ^^^ m) := by
  have hchans : chans.isEmpty = false := by
    cases chans with
    | nil => simp [Logic2.merged] at hm
    | cons a l => rfl
  have hmask : (1 <<< i) ≠ 0 := by
    simp [Nat.shiftLeft_eq]
  obtain ⟨m, hm0, hh⟩ := gatherAux_head_aux (Logic2.initialState chans) rest t
    (1 <<< i) hmin hmask
  refine ⟨(Logic2.gatherAux (some (t, 1 <<< i)) (Logic2.initialState chans) rest).1,
    (Logic2.gatherAux (some (t, 1 <<< i)) (Logic2.initialState chans) rest).2,
    m, ?_, hm0, hh⟩
  simp only [Logic2.new, hne, hchans, Bool.false_eq_true, if_false]
  rw [hm]
  rfl

/-- Witness for the amended C7: the single-channel input of the
counterexample has its first Sample at the first transition time 5 s. -/
theorem c7_no_initial_sample_witness :
    ∃ samples flag m,
      Logic2.new [⟨0, true, [⟨5, 1⟩]⟩] = .ok samples flag ∧ m ≠ 0
      ∧ samples.head? = some ((⟨5, 1⟩ : F64), Logic2.initialState [⟨0, true, [⟨5, 1⟩]⟩] ^^^ m) :=
  c7_no_initial_sample [⟨0, true, [⟨5, 1⟩]⟩] 0 ⟨5, 1⟩ [] (by decide) rfl
    (by intro q hq; simp at hq)

/-- Claim C8: the claim (from the spec's error table) says a file I/O
failure — including EOF inside a 9-byte record — surfaces exactly one
error event and then the stream ends.  On a 4-byte (truncated) input the
legacy src/input/logicdata.rs source ends the stream with no error event
at all, while the src/source/logic.rs variant emits an error event and
returns to a state that emits another error event on every subsequent
pull (its `stopped` flag is never set), so the stream never ends. -/
theorem c8_truncated_record_behaviour :
    logicdataRun ⟨1, 1⟩ [1, 2, 3, 4] = []
    ∧ sourceLogicNext ⟨1, 1⟩ ⟨[1, 2, 3, 4], ⟨0, 1⟩, false⟩
        = some ((⟨0, 1⟩, .error "io error"), ⟨[], ⟨0, 1⟩, false⟩)
    ∧ sourceLogicNext ⟨1, 1⟩ ⟨[], ⟨0, 1⟩, false⟩
        = some ((⟨0, 1⟩, .error "io error"), ⟨[], ⟨0, 1⟩, false⟩) :=
  ⟨rfl, rfl, rfl⟩

/-- Claim C9: the claim says a parity mismatch is reported as a `Parity`
error event and the stage keeps producing events without panicking.  With
parity even the monitor does enter the `Parity` state after shifting
eight data bits, but the `Parity` arm of `Monitor::update` is
`unimplemented!`: continuing the same frame panics.  The same input with
parity none completes without panic. -/
theorem c9_parity_panics :
    monitorRun (Monitor.new ⟨1, 1⟩ .Even .tx)
        [(⟨0, 1⟩, true, false), (⟨1, 1⟩, false, false), (⟨11, 1⟩, false, false)]
      = .panicked
    ∧ ∃ m, monitorRun (Monitor.new ⟨1, 1⟩ .None .tx)
        [(⟨0, 1⟩, true, false), (⟨1, 1⟩, false, false), (⟨11, 1⟩, false, false)]
      = .ok m :=
  ⟨rfl, ⟨_, rfl⟩⟩

/-- Claim C10: when chip-select deasserts (`ChipSelect(true)`) while the
pending command is any in-progress variant other than `Read`,
`PageProgram` or `ReadSFDP`, `Spif::update` emits nothing — neither a
command nor an error — and the partial state is discarded (reset to
`None`). -/
theorem c10_silent_discard (s : Spif.State) (ts : ℚ)
    (h : s.pending.isSilentlyDropped = true) :
    Spif.update s ts (.ChipSelect true)
      = .ok { s with cs := true, pending := .None } none := by
  obtain ⟨cs, idx, pending⟩ := s
  cases pending <;>
    first
      | rfl
      | simp [Spif.PendingCommand.isSilentlyDropped] at h

/-- Witness for C10: a `SectorErase` that has accumulated one address byte
is silently dropped at chip-select deassert. -/
theorem c10_silent_discard_witness :
    (Spif.PendingCommand.SectorErase 0 0x12).isSilentlyDropped = true
    ∧ Spif.update ⟨false, 1, .SectorErase 0 0x12⟩ 3 (.ChipSelect true)
      = .ok ⟨true, 1, .None⟩ none :=
  ⟨rfl, c10_silent_discard ⟨false, 1, .SectorErase 0 0x12⟩ 3 rfl⟩

end Ltp
